import Mathlib

/-!
Verification of the entry-parsing and URL-verification pipeline of the
reference-checking tool (src/streamlit_app.py).

The Python source is shallowly embedded.  Strings are modelled as
List Char (one element per code point, matching Python string indexing
and slicing).  Network requests and calls to the external judgment
service are modelled as oracles passed in explicitly; everything the
code itself computes (splitting, regex matching, classification,
retry loops) is embedded as executable Lean functions.

Modelling notes, valid throughout the file:
* Python str.strip with no arguments removes ASCII whitespace
  characters; the embedding strips the same ASCII set.  Inputs in the
  claims contain no exotic Unicode whitespace.
* The regex \s and \w classes are modelled on ASCII (plus Hangul
  syllables for \w, which occur in the data); Python additionally
  treats other non-ASCII letters and digits as word characters, none
  of which occur adjacent to the relevant pattern positions in the
  claims considered here.
* The regex . is modelled as any character.  In Python it excludes
  newlines, but every entry is produced by splitlines and therefore
  contains none.
-/

namespace RefCheck

/-- Characters treated as whitespace by the regex class backslash-s and by
Python str.strip: space, tab, newline, carriage return, vertical tab,
form feed. -/
def isSpaceRe (c : Char) : Bool :=
  c == ' ' || c == '\t' || c == '\n' || c == '\r' || c == '\x0b' || c == '\x0c'

/-- Python str.strip with no argument: drop whitespace from both ends. -/
def pyStrip (l : List Char) : List Char :=
  ((l.dropWhile isSpaceRe).reverse.dropWhile isSpaceRe).reverse

/-- Boolean list-prefix test, used to model lookaheads and startswith. -/
def prefixOf : List Char → List Char → Bool
  | [], _ => true
  | _ :: _, [] => false
  | a :: as, b :: bs => a == b && prefixOf as bs

/-- Python substring containment, the operator in of str. -/
def containsSub (p : List Char) : List Char → Bool
  | [] => prefixOf p []
  | c :: rest => prefixOf p (c :: rest) || containsSub p rest

/-- One splitting pass for the regex comma-whitespace-lookahead pattern
used by separator.  A delimiter is a comma followed by at least one
whitespace character whose maximal whitespace run is immediately
followed by the given keyword; the comma and the whitespace are
consumed, the keyword is kept (it is a lookahead).  The fuel argument
is bounded below by the number of remaining characters plus one and is
never exhausted; it only makes the recursion structural. -/
def splitKeywordAux (token : List Char) : Nat → List Char → List Char → List (List Char)
  | 0, acc, l => [acc.reverse ++ l]
  | _ + 1, acc, [] => [acc.reverse]
  | fuel + 1, acc, c :: rest =>
    if c == ',' && !(rest.takeWhile isSpaceRe).isEmpty
        && prefixOf token (rest.dropWhile isSpaceRe) then
      acc.reverse :: splitKeywordAux token fuel [] (rest.dropWhile isSpaceRe)
    else
      splitKeywordAux token fuel (c :: acc) rest

/-- Models re.split on the pattern comma, one or more whitespace,
lookahead of the given keyword. -/
def splitKeyword (token : List Char) (l : List Char) : List (List Char) :=
  splitKeywordAux token (l.length + 1) [] l

/-- Content before the last right curly quote of the list, if one
occurs; models the greedy group (.*) followed by the closing quote in
the title regex. -/
def lastSplitClose (l : List Char) : Option (List Char) :=
  match l.reverse.dropWhile (fun c => !(c == '”')) with
  | '”' :: restRev => some restRev.reverse
  | _ => none

/-- Models re.match of the pattern: lazy nonempty group, comma, lazy
whitespace, left curly quote, greedy group, right curly quote.  The
first argument accumulates (reversed) the candidate for the first
group; the scan looks for the first comma at position at least one
that is followed by optional whitespace and a left curly quote, then
takes the greedy second group up to the last right curly quote.
Returns the two captured groups. -/
def reMatchTitle : List Char → List Char → Option (List Char × List Char)
  | _, [] => none
  | acc, ',' :: rest =>
    if acc.isEmpty then reMatchTitle [','] rest
    else
      match rest.dropWhile isSpaceRe with
      | '“' :: tail =>
        match lastSplitClose tail with
        | some g2 => some (acc.reverse, g2)
        | none => reMatchTitle (',' :: acc) rest
      | _ => reMatchTitle (',' :: acc) rest
  | acc, c :: rest => reMatchTitle (c :: acc) rest

/-- The four slots produced by separator: parts 0 to 3 of the Python
list (attribution, title, source URL, retrieval marker). -/
structure SepParts where
  s0 : List Char
  s1 : List Char
  s2 : List Char
  s3 : List Char
deriving DecidableEq, Repr

/-- Embeds the Python function separator: split the entry at a comma
followed by whitespace and the keyword http (or the retrieval keyword
when http does not occur in the entry), extract attribution and title
from the document part via the curly-quote regex, and split the
remainder into source URL and retrieval marker. -/
def separator (entry : List Char) : SepParts :=
  let token := if containsSub "http".data entry then "http".data else "검색일".data
  let partsHttp := splitKeyword token entry
  let docInfo := partsHttp.headD []
  let refInfo := (partsHttp.drop 1).headD []
  let p01 : List Char × List Char :=
    if docInfo.contains '“' && docInfo.contains '”' then
      match reMatchTitle [] docInfo with
      | some (g1, g2) => (pyStrip g1, '“' :: (g2 ++ ['”']))
      | none => (pyStrip docInfo, [])
    else (pyStrip docInfo, [])
  let p23 : List Char × List Char :=
    if containsSub "http".data refInfo then
      let partsRef := splitKeyword "검색일".data refInfo
      (pyStrip (partsRef.headD []), pyStrip ((partsRef.drop 1).headD []))
    else ([], pyStrip refInfo)
  { s0 := p01.1, s1 := p01.2, s2 := p23.1, s3 := p23.2 }

/-- Embeds check_format: the entry contains a straight double-quote
pair, or a left curly quote with a right curly quote after it. -/
def pairSearch (o c : Char) : List Char → Bool
  | [] => false
  | x :: rest => (x == o && rest.contains c) || pairSearch o c rest

/-- Rule-based format check of the Python source. -/
def check_format (l : List Char) : Bool :=
  pairSearch '"' '"' l || pairSearch '“' '”' l

/-- The sentinel substitution applied by process_entries to every slot:
values NA, empty and None become the needs-review marker. -/
def fillNA (x : List Char) : List Char :=
  if x = "NA".data ∨ x = [] then "확인필요".data else x

/-- Word characters for the regex word-boundary class: ASCII letters,
ASCII digits, underscore, and Hangul syllables (code points 0xAC00 to
0xD7A3), the non-ASCII letters occurring in this data. -/
def isWordChar (c : Char) : Bool :=
  c.isAlphanum || c == '_' || decide (44032 ≤ c.toNat ∧ c.toNat ≤ 55203)

/-- ASCII digit test by code point (48 to 57). -/
def isDigitCh (c : Char) : Bool :=
  decide (48 ≤ c.toNat ∧ c.toNat ≤ 57)

/-- Word-boundary test after the last consumed character, which is a
digit: the match succeeds if the remainder is empty or starts with a
non-word character. -/
def noWordNext : List Char → Bool
  | [] => true
  | c :: _ => !(isWordChar c)

/-- Day alternation of the date regex, characters by code point:
49 to 57 is the class one to nine, 48 is the zero digit, 50 is the
two digit, 51 is the three digit, followed by the trailing word
boundary.  Mirrors the ordered alternation of the source pattern;
the whole remainder after an alternative is just the boundary, so the
ordered alternation is equivalent to the disjunction below. -/
def matchDayB : List Char → Bool
  | [] => false
  | c :: rest =>
    (decide (49 ≤ c.toNat ∧ c.toNat ≤ 57) && noWordNext rest) ||
    (decide (c.toNat = 49 ∨ c.toNat = 50) &&
      (match rest with
       | d :: rest2 => isDigitCh d && noWordNext rest2
       | [] => false)) ||
    (decide (c.toNat = 51) &&
      (match rest with
       | d :: rest2 => decide (d.toNat = 48 ∨ d.toNat = 49) && noWordNext rest2
       | [] => false))

/-- Month alternation of the date regex followed by a dot (code point
46) and the day part. -/
def matchMonthDot : List Char → Bool
  | [] => false
  | c :: rest =>
    (decide (49 ≤ c.toNat ∧ c.toNat ≤ 57) &&
      (match rest with
       | d :: rest2 => decide (d.toNat = 46) && matchDayB rest2
       | [] => false)) ||
    (decide (c.toNat = 49) &&
      (match rest with
       | m2 :: d :: rest2 =>
         decide (48 ≤ m2.toNat ∧ m2.toNat ≤ 50) && decide (d.toNat = 46) && matchDayB rest2
       | _ => false))

/-- The date pattern match starting at the current position: four
digits, a dot, then month, dot, day with its boundary. -/
def matchDateAt : List Char → Bool
  | y1 :: y2 :: y3 :: y4 :: d :: rest =>
    isDigitCh y1 && isDigitCh y2 && isDigitCh y3 && isDigitCh y4 &&
    decide (d.toNat = 46) && matchMonthDot rest
  | _ => false

/-- Models re.search of the date pattern: scan every start position;
the Bool argument tells whether a word boundary holds at the current
position (true at the start of the string, afterwards the negation of
the previous character being a word character, since the pattern
starts with a digit). -/
def dateSearch : Bool → List Char → Bool
  | _, [] => false
  | bnd, c :: rest => (bnd && matchDateAt (c :: rest)) || dateSearch (!(isWordChar c)) rest

/-- Python str.replace of the fixed retrieval label (the keyword, a
colon and a space) by the empty string: scan left to right, skip each
occurrence, do not rescan emitted output.  Mirrors the replace call in
process_entries. -/
def stripLabel : List Char → List Char
  | [] => []
  | '검' :: '색' :: '일' :: ':' :: ' ' :: rest => stripLabel rest
  | c :: rest => c :: stripLabel rest

/-- The search-date computation of process_entries: strip the label,
strip whitespace, keep the result when the date regex finds a match,
otherwise the needs-review sentinel. -/
def extractSearchDate (s3 : List Char) : List Char :=
  let d := pyStrip (stripLabel s3)
  if dateSearch true d then d else "확인필요".data

/-- Result of the first, certificate-validating HTTP GET of
check_url_status, as observed by the code: a response with status and
final URL, or one of the exception classes the code distinguishes. -/
inductive FirstReq where
  | ok (status : Nat) (finalUrl : List Char)
  | sslError
  | timeout
  | connError
  | invalidURL
  | missingSchema
  | otherExc (name : List Char)
deriving DecidableEq

/-- Result of the retry with certificate validation disabled: a
response, or an exception with its type name and message text. -/
inductive SecondReq where
  | ok (status : Nat) (finalUrl : List Char)
  | exc (name msg : List Char)
deriving DecidableEq

/-- Result of the metadata GET of fetch_page_meta, with the parsed
title, og-title and description (the HTML parsing itself is treated
as part of the oracle, values already stripped). -/
inductive MetaNet where
  | exc
  | resp (status : Nat) (title ogTitle desc : List Char)
deriving DecidableEq

/-- The network, as a deterministic oracle indexed by the requested
URL. -/
structure Net where
  probe : List Char → FirstReq
  probe2 : List Char → SecondReq
  meta : List Char → MetaNet

/-- The dictionary returned by check_url_status.  The status code
field is a Nat or the empty string in Python; the empty string is
modelled as none. -/
structure UrlCheckResult where
  status : List Char
  code : Option Nat
  finalUrl : List Char
  memo : List Char
deriving DecidableEq

/-- Decimal digits of a Nat, for the f-string interpolations. -/
def natChars (n : Nat) : List Char :=
  (Nat.repr n).data

/-- Embeds check_url_status.  The timeout argument of the source only
bounds the blocking call and is not observable in the result, so it is
not modelled.  All exception handlers of the source are represented by
the oracle constructors. -/
def check_url_status (url : List Char) (net : Net) : UrlCheckResult :=
  if pyStrip url = [] then
    { status := "오류".data, code := none, finalUrl := [], memo := "URL 없음".data }
  else
    if !(prefixOf "http://".data (pyStrip url) || prefixOf "https://".data (pyStrip url)) then
      { status := "오류".data, code := none, finalUrl := [],
        memo := "http/https로 시작하지 않음".data }
    else
      match net.probe (pyStrip url) with
      | .ok s f =>
        if 200 ≤ s ∧ s < 300 then
          { status := "정상".data, code := some s, finalUrl := f, memo := [] }
        else
          { status := "오류".data, code := some s, finalUrl := f,
            memo := "HTTP ".data ++ natChars s }
      | .sslError =>
        match net.probe2 (pyStrip url) with
        | .ok s f =>
          if 200 ≤ s ∧ s < 300 then
            { status := "정상(보안주의)".data, code := some s, finalUrl := f,
              memo := "SSL 검증 실패(보안주의): verify=False로는 접속됨".data }
          else
            { status := "오류".data, code := some s, finalUrl := f,
              memo := "SSL 검증 실패 + HTTP ".data ++ natChars s ++ "(verify=False)".data }
        | .exc name msg =>
          { status := "확인불가".data, code := none, finalUrl := [],
            memo := "SSL 핸드셰이크 실패(verify=False도 실패) - ".data
                      ++ name ++ ": ".data ++ msg.take 120 }
      | .timeout =>
        { status := "확인불가".data, code := none, finalUrl := [], memo := "Timeout".data }
      | .connError =>
        { status := "확인불가".data, code := none, finalUrl := [],
          memo := "Connection error".data }
      | .invalidURL =>
        { status := "오류".data, code := none, finalUrl := [], memo := "Invalid URL".data }
      | .missingSchema =>
        { status := "오류".data, code := none, finalUrl := [],
          memo := "URL 스키마 누락(http/https)".data }
      | .otherExc name =>
        { status := "확인불가".data, code := none, finalUrl := [],
          memo := "예외: ".data ++ name }

/-- The fixed extension list DOC_EXTS of the source, in order. -/
def DOC_EXTS : List (List Char) :=
  [".pdf".data, ".doc".data, ".docx".data, ".xls".data, ".xlsx".data,
   ".ppt".data, ".pptx".data, ".txt".data, ".csv".data, ".rtf".data]

/-- Python str.lower on the URL; ASCII case folding (URLs in this data
are ASCII, and non-ASCII characters are unaffected by either model for
the extension substrings tested, which are ASCII). -/
def pyLower (l : List Char) : List Char :=
  l.map Char.toLower

/-- Embeds detect_file_ext: the first extension of the fixed list that
occurs as a substring of the lowercased URL, else the empty string. -/
def detect_file_ext (url : List Char) : List Char :=
  ((DOC_EXTS.find? fun ext => containsSub ext (pyLower url)).getD [])

/-- The metadata triple returned by fetch_page_meta. -/
structure MetaResult where
  pageTitle : List Char
  pageOgTitle : List Char
  pageDesc : List Char
deriving DecidableEq

/-- Embeds fetch_page_meta: empty metadata for a missing or
scheme-less URL, for a URL with a known document extension (skipped
without any request), for a failed request or a non-2xx response;
otherwise the parsed fields truncated to 200, 200 and 300
characters. -/
def fetch_page_meta (url : List Char) (net : Net) : MetaResult :=
  if pyStrip url = [] then ⟨[], [], []⟩
  else
    if !(prefixOf "http://".data (pyStrip url) || prefixOf "https://".data (pyStrip url)) then
      ⟨[], [], []⟩
    else if !(detect_file_ext (pyStrip url)).isEmpty then ⟨[], [], []⟩
    else
      match net.meta (pyStrip url) with
      | .exc => ⟨[], [], []⟩
      | .resp s t o d =>
        if 200 ≤ s ∧ s < 300 then ⟨t.take 200, o.take 200, d.take 300⟩
        else ⟨[], [], []⟩

/-- One attempt of the format-judgment oracle call inside GPTcheck, as
observed by the code: a rate-limit signal, any other failure with the
exception type name (this includes a malformed JSON reply, whose parse
error is caught by the same handler), or a successful parsed reply
carrying the value of the error-flag key (none when the key is
missing).  The sleep durations of the backoff are not observable in
the result and are not modelled. -/
inductive GPTAttempt where
  | rateLimit
  | failure (excName : List Char)
  | success (errField : Option (List Char))
deriving DecidableEq

/-- The dictionary returned by GPTcheck on the non-fall-through paths:
the error-flag value and the original document. -/
structure GPTResult where
  errFlag : List Char
  original : List Char
deriving DecidableEq

/-- Retry loop of GPTcheck.  The first Nat argument is the index of
the next oracle attempt, the second the remaining attempts out of
five; the returned Nat is the number of oracle calls performed.  When
the retries are exhausted the Python loop falls through the end of the
function and returns None, modelled by the none result. -/
def GPTcheckAux (doc : List Char) (oracle : Nat → GPTAttempt) :
    Nat → Nat → Option GPTResult × Nat
  | i, 0 => (none, i)
  | i, fuel + 1 =>
    match oracle i with
    | .success e =>
      (some { errFlag :=
                match e with
                | some v => if v = [] then "O(오류여부 누락)".data else v
                | none => "O(오류여부 누락)".data,
              original := doc }, i + 1)
    | .failure nm =>
      (some { errFlag := "O(GPTcheck 실패:".data ++ nm ++ ")".data, original := doc }, i + 1)
    | .rateLimit => GPTcheckAux doc oracle (i + 1) fuel

/-- Embeds GPTcheck with its retry cap of five attempts.  The pair
also reports how many oracle calls were made. -/
def GPTcheck (doc : List Char) (oracle : Nat → GPTAttempt) : Option GPTResult × Nat :=
  GPTcheckAux doc oracle 0 5

/-- One attempt of the content-match oracle call inside
gpt_url_match_single: rate limit, any other failure, or a reply with
the message content (none models a null content, which the code turns
into the empty string). -/
inductive MatchAttempt where
  | rateLimit
  | failure
  | success (content : Option (List Char))
deriving DecidableEq

/-- Classification of the stripped oracle reply by the two substring
tests of gpt_url_match_single, in source order: the match token first,
then the mismatch token, else the reply truncated to 50 characters. -/
def classifyReply (out : List Char) : List Char :=
  if containsSub "일치".data out then "일치(유효)".data
  else if containsSub "불일치".data out then "불일치(오류)".data
  else out.take 50

/-- Retry loop of gpt_url_match_single with its cap of three attempts;
same counting convention as GPTcheckAux.  Exhausted retries return the
unreachable marker. -/
def gptUrlMatchAux (oracle : Nat → MatchAttempt) : Nat → Nat → List Char × Nat
  | i, 0 => ("확인불가".data, i)
  | i, fuel + 1 =>
    match oracle i with
    | .success c => (classifyReply (pyStrip (c.getD [])), i + 1)
    | .failure => ("확인불가".data, i + 1)
    | .rateLimit => gptUrlMatchAux oracle (i + 1) fuel

/-- Embeds gpt_url_match_single.  The first argument is the string
returned by crawling_for_gpt for the requested URL (the page text
capped at the length budget, or one of the two sentinel strings); the
info and url arguments of the source are routed only into the oracle
request and therefore appear here only through the oracle itself. -/
def gpt_url_match_single (page : List Char) (oracle : Nat → MatchAttempt) :
    List Char × Nat :=
  if page = "확인불가".data ∨ page = "파일(내용확인불가)".data then (page, 0)
  else gptUrlMatchAux oracle 0 3

/-- One output record of process_entries, with the dictionary keys of
the source renamed to Lean identifiers in order of appearance:
urlStatus, urlMemo, urlCode, urlFix are the URL status, memo, status
code and final-URL columns; fileFlag and fileExt the file columns;
pageTitle, pageOgTitle, pageDesc the metadata columns; attribution,
title, sourceURL, searchDate the parsed fields; original the raw
entry; ruleNote the rule-based format note; contentMatch the GPT
content-match column; gptFormatNote the GPT format column. -/
structure Record where
  urlStatus : List Char
  urlMemo : List Char
  urlCode : Option Nat
  urlFix : List Char
  fileFlag : List Char
  fileExt : List Char
  pageTitle : List Char
  pageOgTitle : List Char
  pageDesc : List Char
  attribution : List Char
  title : List Char
  sourceURL : List Char
  searchDate : List Char
  original : List Char
  ruleNote : List Char
  contentMatch : List Char
  gptFormatNote : List Char
deriving DecidableEq

/-- The loop body of process_entries for one entry. -/
def processEntry (net : Net) (entry : List Char) : Record :=
  let ruleNote := if check_format entry then [] else "확인필요".data
  let s := separator entry
  let a := fillNA s.s0
  let t := fillNA s.s1
  let u := fillNA s.s2
  let m := fillNA s.s3
  let sd := extractSearchDate m
  let ur := check_url_status u net
  let fe := detect_file_ext u
  let ff := if fe.isEmpty then "웹".data else "파일".data
  let mu := if ur.finalUrl.isEmpty then u else ur.finalUrl
  let meta := fetch_page_meta mu net
  { urlStatus := ur.status, urlMemo := ur.memo, urlCode := ur.code,
    urlFix := ur.finalUrl, fileFlag := ff, fileExt := fe,
    pageTitle := meta.pageTitle, pageOgTitle := meta.pageOgTitle,
    pageDesc := meta.pageDesc, attribution := a, title := t,
    sourceURL := u, searchDate := sd, original := entry,
    ruleNote := ruleNote, contentMatch := [], gptFormatNote := [] }

/-- Embeds process_entries: one record per entry, appended in input
order. -/
def process_entries (net : Net) (entries : List (List Char)) : List Record :=
  entries.map (processEntry net)

/-- Per-row environment for the selective re-verification: the string
crawling_for_gpt produced for the row URL, and the oracle attempts for
the row. -/
structure RowEnv where
  page : List Char
  attempts : Nat → MatchAttempt

/-- The selective content-match loop of the experimental feature: for
every selected row index, write the gpt_url_match_single result into
the content-match field of that row; all other fields and rows are
untouched.  The Nat argument is the index of the first record of the
remaining list. -/
def reverifyFrom (env : Nat → RowEnv) (selected : List Nat) :
    Nat → List Record → List Record
  | _, [] => []
  | i, r :: rs =>
    (if selected.contains i then
       { r with contentMatch := (gpt_url_match_single (env i).page (env i).attempts).1 }
     else r) :: reverifyFrom env selected (i + 1) rs

/-- Embeds the selected-rows content-match pass over a whole record
list. -/
def reverify (env : Nat → RowEnv) (records : List Record) (selected : List Nat) :
    List Record :=
  reverifyFrom env selected 0 records

/-! ### Shared helper lemmas -/

theorem prefixOf_iff : ∀ (p l : List Char), prefixOf p l = true ↔ ∃ t, l = p ++ t
  | [], l => by simp [prefixOf]
  | _ :: _, [] => by simp [prefixOf]
  | a :: as, b :: bs => by
    simp only [prefixOf, Bool.and_eq_true, beq_iff_eq, prefixOf_iff as bs,
      List.cons_append]
    constructor
    · rintro ⟨rfl, t, rfl⟩; exact ⟨t, rfl⟩
    · rintro ⟨t, h⟩
      injection h with h1 h2
      exact ⟨h1.symm, t, h2⟩

theorem containsSub_iff : ∀ (p l : List Char),
    containsSub p l = true ↔ ∃ a b, l = a ++ (p ++ b)
  | p, [] => by
    simp only [containsSub, prefixOf_iff]
    constructor
    · rintro ⟨t, h⟩; exact ⟨[], t, h⟩
    · rintro ⟨a, b, h⟩
      rcases List.append_eq_nil.mp h.symm with ⟨rfl, h2⟩
      exact ⟨b, by simpa using h⟩
  | p, c :: rest => by
    simp only [containsSub, Bool.or_eq_true, prefixOf_iff, containsSub_iff p rest]
    constructor
    · rintro (⟨t, h⟩ | ⟨a, b, h⟩)
      · exact ⟨[], t, by simpa using h⟩
      · exact ⟨c :: a, b, by simp [h]⟩
    · rintro ⟨a, b, h⟩
      cases a with
      | nil => exact Or.inl ⟨b, by simpa using h⟩
      | cons x a' =>
        injection h with h1 h2
        exact Or.inr ⟨a', b, h2⟩

/-- The attribution field of a record is the sentinel-filled first
separator slot. -/
theorem processEntry_attribution (net : Net) (entry : List Char) :
    (processEntry net entry).attribution = fillNA (separator entry).s0 := rfl

theorem processEntry_title (net : Net) (entry : List Char) :
    (processEntry net entry).title = fillNA (separator entry).s1 := rfl

theorem processEntry_sourceURL (net : Net) (entry : List Char) :
    (processEntry net entry).sourceURL = fillNA (separator entry).s2 := rfl

theorem processEntry_searchDate (net : Net) (entry : List Char) :
    (processEntry net entry).searchDate =
      extractSearchDate (fillNA (separator entry).s3) := rfl

theorem processEntry_urlStatus (net : Net) (entry : List Char) :
    (processEntry net entry).urlStatus =
      (check_url_status (fillNA (separator entry).s2) net).status := rfl

theorem processEntry_fileFlag (net : Net) (entry : List Char) :
    (processEntry net entry).fileFlag =
      if (detect_file_ext (fillNA (separator entry).s2)).isEmpty then "웹".data
      else "파일".data := rfl

theorem fillNA_ne_nil (x : List Char) : fillNA x ≠ [] := by
  unfold fillNA
  split
  · decide
  · next h => exact fun hx => h (Or.inr hx)

theorem extractSearchDate_ne_nil (s : List Char) : extractSearchDate s ≠ [] := by
  unfold extractSearchDate
  dsimp only
  split
  · next hd =>
    intro h
    rw [h] at hd
    exact absurd hd (by decide)
  · decide

/-- A network oracle on which every request fails; used to instantiate
theorems whose conclusion does not depend on the network. -/
def netFixed : Net :=
  { probe := fun _ => .timeout, probe2 := fun _ => .exc [] [], meta := fun _ => .exc }

/-! ### C1: classification of the content-match oracle reply -/

/-- C1 (code bug): a reply consisting of exactly the instructed
mismatch token is classified as a match.  The source tests the match
token substring first, and the match token is a substring of the
mismatch token, so the mismatch branch of the source can never fire:
the reply carrying the mismatch token is classified as the match
outcome, contradicting the claimed Mismatched classification. -/
theorem c1_mismatch_classified_as_match :
    gpt_url_match_single "웹페이지 본문 텍스트".data
        (fun _ => .success (some "불일치(오류)".data)) =
      ("일치(유효)".data, 1) ∧
    "일치(유효)".data ≠ "불일치(오류)".data := by
  decide

/-! ### C2: the happy-path parsing scenario -/

/-- The scenario entry of the claim, with the title delimited by
straight double quotes. -/
def entryStraight : List Char :=
  "환경부, \"2023년 탄소중립 보고서,\" http://example.com/report, 검색일: 2023.5.1".data

/-- The amended scenario entry: curly quotes around the title (the
only quote style the title rule of the source recognises) and a comma
directly after the closing quote so that the comma-whitespace-http
split pattern can fire. -/
def entryCurly : List Char :=
  "환경부, “2023년 탄소중립 보고서,”, http://example.com/report, 검색일: 2023.5.1".data

/-- C2 (counterexample): on the straight-quote scenario entry the
split pattern never fires, because the comma before http is followed
by the closing quote rather than by whitespace; the whole entry lands
in the attribution slot and every other slot receives the needs-review
sentinel, refuting every extraction equality of the claim. -/
theorem c2_counterexample :
    fillNA (separator entryStraight).s0 = entryStraight ∧
    fillNA (separator entryStraight).s0 ≠ "환경부".data ∧
    fillNA (separator entryStraight).s1 = "확인필요".data ∧
    fillNA (separator entryStraight).s2 = "확인필요".data ∧
    fillNA (separator entryStraight).s3 = "확인필요".data := by
  decide

/-- C2 (amended): for the curly-quote variant of the scenario entry,
with a comma after the closing quote, the parsing stage extracts the
claimed attribution, quoted title span, source URL and retrieval
date, and when the HTTP probe of that URL returns a 2xx status the
URL status is the Reachable marker. -/
theorem c2_amended (net : Net) (s : Nat) (f : List Char)
    (hp : net.probe "http://example.com/report".data = .ok s f)
    (h2 : 200 ≤ s) (h3 : s < 300) :
    (processEntry net entryCurly).attribution = "환경부".data ∧
    (processEntry net entryCurly).title = "“2023년 탄소중립 보고서,”".data ∧
    (processEntry net entryCurly).sourceURL = "http://example.com/report".data ∧
    (processEntry net entryCurly).searchDate = "2023.5.1".data ∧
    (processEntry net entryCurly).urlStatus = "정상".data := by
  have hsep : separator entryCurly =
      ⟨"환경부".data, "“2023년 탄소중립 보고서,”".data,
        "http://example.com/report".data, "검색일: 2023.5.1".data⟩ := by decide
  have hu : fillNA "http://example.com/report".data =
      "http://example.com/report".data := by decide
  have hstrip : pyStrip "http://example.com/report".data =
      "http://example.com/report".data := by decide
  refine ⟨?_, ?_, ?_, ?_, ?_⟩
  · rw [processEntry_attribution, hsep]; decide
  · rw [processEntry_title, hsep]; decide
  · rw [processEntry_sourceURL, hsep]; decide
  · rw [processEntry_searchDate, hsep]; decide
  · rw [processEntry_urlStatus, hsep]
    show (check_url_status (fillNA "http://example.com/report".data) net).status = _
    rw [hu]
    unfold check_url_status
    rw [hstrip]
    rw [if_neg (by decide), if_neg (by decide), hp]
    dsimp only
    rw [if_pos ⟨h2, h3⟩]

/-- C2 (witness): the amended theorem applied to a network returning
status 200 for the scenario URL. -/
theorem c2_amended_witness :
    (processEntry
        { probe := fun _ => .ok 200 "http://example.com/report".data,
          probe2 := fun _ => .exc [] [], meta := fun _ => .exc }
        entryCurly).urlStatus = "정상".data :=
  (c2_amended
    { probe := fun _ => .ok 200 "http://example.com/report".data,
      probe2 := fun _ => .exc [] [], meta := fun _ => .exc }
    200 "http://example.com/report".data rfl (by omega) (by omega)).2.2.2.2

/-! ### C7: no parsed slot is ever empty -/

/-- C7: every separator slot that comes out empty is replaced by the
needs-review sentinel before it reaches the record, and the four
parsed fields of every produced record (attribution, title, source
URL, search date) are never the empty string. -/
theorem c7_no_empty_parsed_fields (net : Net) (entry : List Char) :
    ((separator entry).s0 = [] → (processEntry net entry).attribution = "확인필요".data) ∧
    ((separator entry).s1 = [] → (processEntry net entry).title = "확인필요".data) ∧
    ((separator entry).s2 = [] → (processEntry net entry).sourceURL = "확인필요".data) ∧
    ((separator entry).s3 = [] → fillNA (separator entry).s3 = "확인필요".data) ∧
    (processEntry net entry).attribution ≠ [] ∧
    (processEntry net entry).title ≠ [] ∧
    (processEntry net entry).sourceURL ≠ [] ∧
    (processEntry net entry).searchDate ≠ [] := by
  refine ⟨?_, ?_, ?_, ?_, ?_, ?_, ?_, ?_⟩
  · intro h; rw [processEntry_attribution, h]; decide
  · intro h; rw [processEntry_title, h]; decide
  · intro h; rw [processEntry_sourceURL, h]; decide
  · intro h; rw [h]; decide
  · rw [processEntry_attribution]; exact fillNA_ne_nil _
  · rw [processEntry_title]; exact fillNA_ne_nil _
  · rw [processEntry_sourceURL]; exact fillNA_ne_nil _
  · rw [processEntry_searchDate]; exact extractSearchDate_ne_nil _

/-- C7 (witness): instantiated on an entry whose separator leaves the
title, URL and marker slots empty. -/
theorem c7_witness :
    (processEntry netFixed "환경부".data).title = "확인필요".data ∧
    (processEntry netFixed "환경부".data).attribution ≠ [] ∧
    (processEntry netFixed "환경부".data).searchDate ≠ [] :=
  ⟨(c7_no_empty_parsed_fields netFixed "환경부".data).2.1 (by decide),
   (c7_no_empty_parsed_fields netFixed "환경부".data).2.2.2.2.1,
   (c7_no_empty_parsed_fields netFixed "환경부".data).2.2.2.2.2.2.2⟩

/-! ### Retry-loop lemmas for the oracle clients -/

theorem GPTcheckAux_le (doc : List Char) (oracle : Nat → GPTAttempt) :
    ∀ (fuel i : Nat), (GPTcheckAux doc oracle i fuel).2 ≤ i + fuel := by
  intro fuel
  induction fuel with
  | zero => intro i; simp [GPTcheckAux]
  | succ n ih =>
    intro i
    cases h : oracle i with
    | rateLimit =>
      have := ih (i + 1)
      simp only [GPTcheckAux, h]
      omega
    | failure nm => simp [GPTcheckAux, h]
    | success e => simp [GPTcheckAux, h]

theorem gptUrlMatchAux_le (m : Nat → MatchAttempt) :
    ∀ (fuel i : Nat), (gptUrlMatchAux m i fuel).2 ≤ i + fuel := by
  intro fuel
  induction fuel with
  | zero => intro i; simp [gptUrlMatchAux]
  | succ n ih =>
    intro i
    cases h : m i with
    | rateLimit =>
      have := ih (i + 1)
      simp only [gptUrlMatchAux, h]
      omega
    | failure => simp [gptUrlMatchAux, h]
    | success c => simp [gptUrlMatchAux, h]

theorem GPTcheckAux_none_iff (doc : List Char) (oracle : Nat → GPTAttempt) :
    ∀ (fuel i : Nat),
      (GPTcheckAux doc oracle i fuel).1 = none ↔
        ∀ j, j < fuel → oracle (i + j) = .rateLimit := by
  intro fuel
  induction fuel with
  | zero => intro i; simp [GPTcheckAux]
  | succ n ih =>
    intro i
    cases h : oracle i with
    | rateLimit =>
      simp only [GPTcheckAux, h]
      rw [ih (i + 1)]
      constructor
      · intro hall j hj
        match j with
        | 0 => simpa using h
        | k + 1 =>
          have hk := hall k (by omega)
          rwa [show i + 1 + k = i + (k + 1) by omega] at hk
      · intro hall j hj
        have hk := hall (j + 1) (by omega)
        rwa [show i + (j + 1) = i + 1 + j by omega] at hk
    | failure nm =>
      simp only [GPTcheckAux, h]
      simp only [reduceCtorEq, false_iff]
      intro hall
      have h0 := hall 0 (by omega)
      rw [Nat.add_zero, h] at h0
      exact absurd h0 (by simp)
    | success e =>
      simp only [GPTcheckAux, h]
      simp only [reduceCtorEq, false_iff]
      intro hall
      have h0 := hall 0 (by omega)
      rw [Nat.add_zero, h] at h0
      exact absurd h0 (by simp)

theorem GPTcheckAux_failure_result (doc : List Char) (oracle : Nat → GPTAttempt) :
    ∀ (fuel i k : Nat) (nm : List Char), k < fuel →
      (∀ j, j < k → oracle (i + j) = .rateLimit) →
      oracle (i + k) = .failure nm →
      GPTcheckAux doc oracle i fuel =
        (some { errFlag := "O(GPTcheck 실패:".data ++ nm ++ ")".data,
                original := doc }, i + k + 1) := by
  intro fuel
  induction fuel with
  | zero => intro i k nm hk; omega
  | succ n ih =>
    intro i k nm hk hrl hf
    cases k with
    | zero =>
      have h0 : oracle i = .failure nm := by simpa using hf
      simp [GPTcheckAux, h0]
    | succ k' =>
      have h0 : oracle i = .rateLimit := by simpa using hrl 0 (by omega)
      simp only [GPTcheckAux, h0]
      rw [show i + (k' + 1) + 1 = i + 1 + k' + 1 by omega]
      exact ih (i + 1) k' nm (by omega)
        (fun j hj => by
          have := hrl (j + 1) (by omega)
          rwa [show i + (j + 1) = i + 1 + j by omega] at this)
        (by rwa [show i + (k' + 1) = i + 1 + k' by omega] at hf)

/-! ### C4: GPTcheck failure handling and termination -/

/-- C4 (counterexample): when every attempt hits the rate limit,
GPTcheck makes its five attempts and then falls through the loop,
returning no outcome at all, refuting the claim that the call always
yields a classified outcome. -/
theorem c4_counterexample :
    (GPTcheck "문서".data (fun _ => .rateLimit)).1 = none := by decide

/-- C4 (amended): any non-rate-limit failure of the oracle is
converted immediately, without retry, into an issue-found outcome
whose reason names the failure type; and the call returns no outcome
exactly when all five attempts hit the rate limit (the caller maps
that missing outcome to its own marker). -/
theorem c4_failure_conversion (doc : List Char) (oracle : Nat → GPTAttempt) :
    (∀ i nm, i < 5 → (∀ j, j < i → oracle j = .rateLimit) →
       oracle i = .failure nm →
       GPTcheck doc oracle =
         (some { errFlag := "O(GPTcheck 실패:".data ++ nm ++ ")".data,
                 original := doc }, i + 1)) ∧
    ((GPTcheck doc oracle).1 = none ↔ ∀ j, j < 5 → oracle j = .rateLimit) := by
  constructor
  · intro i nm hi hrl hf
    have := GPTcheckAux_failure_result doc oracle 5 0 i nm hi
      (fun j hj => by simpa using hrl j hj) (by simpa using hf)
    simpa [GPTcheck] using this
  · have := GPTcheckAux_none_iff doc oracle 5 0
    simpa [GPTcheck] using this

/-- C4 (witness): a failure on the first attempt is converted at
once. -/
theorem c4_witness :
    GPTcheck "문서".data (fun _ => .failure "ValueError".data) =
      (some { errFlag := "O(GPTcheck 실패:ValueError)".data, original := "문서".data }, 1) :=
  (c4_failure_conversion "문서".data (fun _ => .failure "ValueError".data)).1
    0 "ValueError".data (by omega) (fun j hj => absurd hj (by omega)) rfl

/-! ### C5: the TLS fallback classification -/

/-- C5: when the first request raises the TLS validation error, the
single retry with validation disabled determines the outcome: a 2xx
status yields the reachable-with-warning classification (never plain
reachable and never error) with the insecure-fallback memo; a non-2xx
status yields the error classification with the combined memo; a
second failure yields the indeterminate classification with a memo
recording the secondary failure. -/
theorem c5_tls_fallback (url : List Char) (net : Net)
    (h1 : pyStrip url ≠ [])
    (h2 : (prefixOf "http://".data (pyStrip url)
            || prefixOf "https://".data (pyStrip url)) = true)
    (hssl : net.probe (pyStrip url) = .sslError) :
    (∀ s f, net.probe2 (pyStrip url) = .ok s f →
       (200 ≤ s ∧ s < 300 →
          check_url_status url net =
            { status := "정상(보안주의)".data, code := some s, finalUrl := f,
              memo := "SSL 검증 실패(보안주의): verify=False로는 접속됨".data } ∧
          (check_url_status url net).status ≠ "정상".data ∧
          (check_url_status url net).status ≠ "오류".data) ∧
       (¬(200 ≤ s ∧ s < 300) →
          check_url_status url net =
            { status := "오류".data, code := some s, finalUrl := f,
              memo := "SSL 검증 실패 + HTTP ".data ++ natChars s
                        ++ "(verify=False)".data })) ∧
    (∀ nm ms, net.probe2 (pyStrip url) = .exc nm ms →
       check_url_status url net =
         { status := "확인불가".data, code := none, finalUrl := [],
           memo := "SSL 핸드셰이크 실패(verify=False도 실패) - ".data ++ nm
                     ++ ": ".data ++ ms.take 120 }) := by
  unfold check_url_status
  rw [if_neg h1, if_neg (by simp [h2]), hssl]
  dsimp only
  constructor
  · intro s f hok
    rw [hok]
    dsimp only
    constructor
    · intro hs
      rw [if_pos hs]
      exact ⟨rfl, by dsimp only; decide, by dsimp only; decide⟩
    · intro hs
      rw [if_neg hs]
  · intro nm ms hexc
    rw [hexc]

/-- C5 (witness): a TLS failure followed by a 200 retry on a concrete
URL is classified reachable-with-warning. -/
theorem c5_witness :
    check_url_status "https://intra.example.kr".data
        { probe := fun _ => .sslError,
          probe2 := fun _ => .ok 200 "https://intra.example.kr/".data,
          meta := fun _ => .exc } =
      { status := "정상(보안주의)".data, code := some 200,
        finalUrl := "https://intra.example.kr/".data,
        memo := "SSL 검증 실패(보안주의): verify=False로는 접속됨".data } :=
  (((c5_tls_fallback "https://intra.example.kr".data
      { probe := fun _ => .sslError,
        probe2 := fun _ => .ok 200 "https://intra.example.kr/".data,
        meta := fun _ => .exc }
      (by decide) (by decide) rfl).1
    200 "https://intra.example.kr/".data rfl).1 (by omega)).1

/-! ### C6: retry caps of the two oracle clients -/

/-- C6: for every oracle behaviour, GPTcheck makes at most five
attempts and gpt_url_match_single makes at most three; and when every
attempt of gpt_url_match_single hits the rate limit (its page text is
not the file sentinel, so the loop runs), the exhausted retries
produce the unreachable marker. -/
theorem c6_retry_caps (doc : List Char) (g : Nat → GPTAttempt)
    (page : List Char) (m : Nat → MatchAttempt) :
    (GPTcheck doc g).2 ≤ 5 ∧
    (gpt_url_match_single page m).2 ≤ 3 ∧
    (page ≠ "파일(내용확인불가)".data → (∀ i, i < 3 → m i = .rateLimit) →
       (gpt_url_match_single page m).1 = "확인불가".data) := by
  refine ⟨?_, ?_, ?_⟩
  · have := GPTcheckAux_le doc g 5 0
    simpa [GPTcheck] using this
  · unfold gpt_url_match_single
    split
    · simp
    · have := gptUrlMatchAux_le m 3 0
      simpa using this
  · intro hpage hrl
    unfold gpt_url_match_single
    split
    · next hcase =>
      rcases hcase with h | h
      · exact h
      · exact absurd h hpage
    · have h0 := hrl 0 (by omega)
      have h1 := hrl 1 (by omega)
      have h2 := hrl 2 (by omega)
      simp [gptUrlMatchAux, h0, h1, h2]

/-- C6 (witness): three rate limits exhaust the content-match retries
and produce the unreachable marker. -/
theorem c6_witness :
    (gpt_url_match_single "페이지 텍스트".data (fun _ => .rateLimit)).1 =
      "확인불가".data :=
  (c6_retry_caps "문서내용".data (fun _ => .rateLimit)
      "페이지 텍스트".data (fun _ => .rateLimit)).2.2
    (by decide) (fun i _ => rfl)

/-! ### C8: batch size and order preservation -/

/-- C8: process_entries yields exactly one record per entry, in input
order; the record of position i is the single-entry processing of the
input at position i, for every network behaviour, so no failure of one
entry removes or reorders records of the batch. -/
theorem c8_order_preservation (net : Net) (entries : List (List Char)) :
    (process_entries net entries).length = entries.length ∧
    ∀ i, (process_entries net entries).get? i =
           (entries.get? i).map (processEntry net) := by
  refine ⟨by simp [process_entries], fun i => ?_⟩
  simp [process_entries, List.get?_eq_getElem?, List.getElem?_map]

/-! ### C9: frame property of the selective re-verification -/

theorem reverifyFrom_length (env : Nat → RowEnv) (selected : List Nat) :
    ∀ (rs : List Record) (j : Nat), (reverifyFrom env selected j rs).length = rs.length := by
  intro rs
  induction rs with
  | nil => intro j; simp [reverifyFrom]
  | cons r rs ih => intro j; simp [reverifyFrom, ih (j + 1)]

theorem reverifyFrom_get? (env : Nat → RowEnv) (selected : List Nat) :
    ∀ (rs : List Record) (j i : Nat),
      (reverifyFrom env selected j rs).get? i =
        (rs.get? i).map (fun r =>
          if selected.contains (j + i) then
            { r with contentMatch :=
                (gpt_url_match_single (env (j + i)).page (env (j + i)).attempts).1 }
          else r) := by
  intro rs
  induction rs with
  | nil => intro j i; simp [reverifyFrom]
  | cons r rs ih =>
    intro j i
    cases i with
    | zero => simp [reverifyFrom]
    | succ i' =>
      simp only [reverifyFrom, List.get?]
      rw [show j + (i' + 1) = j + 1 + i' by omega]
      exact ih (j + 1) i'

/-- C9: the selective content-match pass keeps the record count, keeps
every unselected row byte-for-byte, and rewrites a selected row only
in its content-match field (the structure update changes nothing
else). -/
theorem c9_reverify_frame (env : Nat → RowEnv) (selected : List Nat)
    (records : List Record) :
    (reverify env records selected).length = records.length ∧
    (∀ i, selected.contains i = false →
       (reverify env records selected).get? i = records.get? i) ∧
    (∀ i r, records.get? i = some r → selected.contains i = true →
       (reverify env records selected).get? i =
         some { r with contentMatch :=
                  (gpt_url_match_single (env i).page (env i).attempts).1 }) := by
  refine ⟨reverifyFrom_length env selected records 0, ?_, ?_⟩
  · intro i hsel
    rw [reverify, reverifyFrom_get? env selected records 0 i]
    simp only [Nat.zero_add, hsel, if_neg Bool.false_ne_true]
    cases records.get? i <;> rfl
  · intro i r hr hsel
    rw [reverify, reverifyFrom_get? env selected records 0 i, hr]
    simp only [Nat.zero_add, hsel, Option.map_some]
    rfl

/-- A record with every field empty, used to instantiate the frame
theorem. -/
def sampleRecord : Record :=
  ⟨[], [], none, [], [], [], [], [], [], [], [], [], [], [], [], [], []⟩

/-- A fixed per-row environment for the frame theorem: the crawl
produced some page text and the oracle fails at once. -/
def rowEnvFixed : Nat → RowEnv :=
  fun _ => ⟨"행 페이지 텍스트".data, fun _ => .failure⟩

/-- C9 (witness): with two records and row 0 selected, row 1 is
untouched and row 0 changes only its content-match field. -/
theorem c9_witness :
    (reverify rowEnvFixed [sampleRecord, sampleRecord] [0]).get? 1 =
      some sampleRecord ∧
    (reverify rowEnvFixed [sampleRecord, sampleRecord] [0]).get? 0 =
      some { sampleRecord with contentMatch := "확인불가".data } :=
  ⟨(c9_reverify_frame rowEnvFixed [0] [sampleRecord, sampleRecord]).2.1 1 (by decide),
   (c9_reverify_frame rowEnvFixed [0] [sampleRecord, sampleRecord]).2.2 0
     sampleRecord rfl (by decide)⟩

/-! ### C10: file-extension detection -/

/-- C10 (counterexample): a URL ending in the docx extension but also
containing the pdf extension is reported as pdf, because the list is
scanned in order and the substring test looks anywhere in the URL;
this refutes the claimed universal docx-to-doc consequence. -/
theorem c10_counterexample :
    detect_file_ext "http://e.com/a.pdf.docx".data = ".pdf".data ∧
    (∃ p, pyLower "http://e.com/a.pdf.docx".data = p ++ ".docx".data) ∧
    ".pdf".data ≠ ".doc".data :=
  ⟨by decide, ⟨"http://e.com/a.pdf".data, by decide⟩, by decide⟩

/-- C10 (amended): detect_file_ext returns the empty string exactly
when no listed extension occurs in the lowercased URL, returns a
nonempty extension when one occurs, reports doc for every URL ending
in docx that does not also contain the pdf extension (the only listed
extension preceding doc), and a nonempty detection makes
fetch_page_meta skip the URL (empty metadata under every network
behaviour) while process_entries flags the row as a file. -/
theorem c10_detection (url : List Char) :
    ((∀ e, e ∈ DOC_EXTS → containsSub e (pyLower url) = false) →
       detect_file_ext url = []) ∧
    (∀ e, e ∈ DOC_EXTS → containsSub e (pyLower url) = true →
       detect_file_ext url ≠ []) ∧
    ((∃ p, pyLower url = p ++ ".docx".data) →
       containsSub ".pdf".data (pyLower url) = false →
       detect_file_ext url = ".doc".data) ∧
    (detect_file_ext (pyStrip url) ≠ [] →
       ∀ net, fetch_page_meta url net = ⟨[], [], []⟩) ∧
    (∀ net entry, detect_file_ext (fillNA (separator entry).s2) ≠ [] →
       (processEntry net entry).fileFlag = "파일".data) := by
  refine ⟨?_, ?_, ?_, ?_, ?_⟩
  · intro h
    have hnone : DOC_EXTS.find? (fun e => containsSub e (pyLower url)) = none :=
      List.find?_eq_none.mpr (fun x hx => by rw [h x hx]; simp)
    simp [detect_file_ext, hnone]
  · intro e he hc
    unfold detect_file_ext
    cases hf : DOC_EXTS.find? (fun e => containsSub e (pyLower url)) with
    | none =>
      exact absurd hc (by simpa using List.find?_eq_none.mp hf e he)
    | some v =>
      have hv : v ∈ DOC_EXTS := List.mem_of_find?_eq_some hf
      have hne : ∀ x ∈ DOC_EXTS, x ≠ ([] : List Char) := by decide
      simpa using hne v hv
  · rintro ⟨p, hp⟩ hpdf
    have hdocx : ".docx".data = ".doc".data ++ ['x'] := by decide
    have hdoc : containsSub ".doc".data (pyLower url) = true :=
      (containsSub_iff _ _).mpr ⟨p, ['x'], by rw [hp, hdocx]⟩
    unfold detect_file_ext DOC_EXTS
    rw [List.find?_cons_of_neg _ (by simp [hpdf]),
      List.find?_cons_of_pos _ (by simp [hdoc])]
    rfl
  · intro hne net
    unfold fetch_page_meta
    split
    · rfl
    · split
      · rfl
      · split
        · rfl
        · next h =>
          exfalso
          apply hne
          have : (detect_file_ext (pyStrip url)).isEmpty = true := by
            cases hd : (detect_file_ext (pyStrip url)).isEmpty with
            | false => exact absurd (by simp [hd]) h
            | true => rfl
          exact List.isEmpty_iff.mp this
  · intro net entry hdet
    rw [processEntry_fileFlag]
    have : (detect_file_ext (fillNA (separator entry).s2)).isEmpty = false := by
      cases hd : (detect_file_ext (fillNA (separator entry).s2)).isEmpty with
      | false => rfl
      | true => exact absurd (List.isEmpty_iff.mp hd) hdet
    simp [this]

/-- C10 (witness): a clean docx URL is reported as doc, and a pdf URL
is skipped by the metadata fetch. -/
theorem c10_witness :
    detect_file_ext "http://e.com/b.docx".data = ".doc".data ∧
    fetch_page_meta "http://e.com/a.pdf".data netFixed = ⟨[], [], []⟩ :=
  ⟨(c10_detection "http://e.com/b.docx".data).2.2.1
      ⟨"http://e.com/b".data, by decide⟩ (by decide),
   (c10_detection "http://e.com/a.pdf".data).2.2.2.1 (by decide) netFixed⟩

/-! ### C3: retrieval-date validation

The specification words for the date pattern are stated as
SpecContainsDate below, and the executable regex embedding is proved
equivalent to it. -/

/-- A decimal numeral written without leading zero: the first
character is a digit one to nine (code points 49 to 57), the rest are
digits. -/
def NumeralChars : List Char → Prop
  | [] => False
  | c :: rest => 49 ≤ c.toNat ∧ c.toNat ≤ 57 ∧ ∀ d ∈ rest, 48 ≤ d.toNat ∧ d.toNat ≤ 57

theorem numeralChars_cons (c : Char) (rest : List Char) :
    NumeralChars (c :: rest) ↔
      49 ≤ c.toNat ∧ c.toNat ≤ 57 ∧ ∀ d ∈ rest, 48 ≤ d.toNat ∧ d.toNat ≤ 57 :=
  Iff.rfl

theorem numeralChars_nil : ¬ NumeralChars [] := fun h => h

/-- Decimal value of a digit string. -/
def charsVal (l : List Char) : Nat :=
  l.foldl (fun n c => 10 * n + (c.toNat - 48)) 0

theorem charsVal_one (c : Char) : charsVal [c] = c.toNat - 48 := by
  simp [charsVal]

theorem charsVal_two (c1 c2 : Char) :
    charsVal [c1, c2] = 10 * (c1.toNat - 48) + (c2.toNat - 48) := by
  simp [charsVal]

theorem charsVal_foldl_ge : ∀ (t : List Char) (acc : Nat),
    acc * 10 ^ t.length ≤ t.foldl (fun n c => 10 * n + (c.toNat - 48)) acc := by
  intro t
  induction t with
  | nil => intro acc; simp
  | cons c t ih =>
    intro acc
    simp only [List.foldl_cons, List.length_cons]
    have h1 := ih (10 * acc + (c.toNat - 48))
    have h2 : acc * 10 ^ (t.length + 1) ≤ (10 * acc + (c.toNat - 48)) * 10 ^ t.length := by
      have he : acc * 10 ^ (t.length + 1) = (10 * acc) * 10 ^ t.length := by ring
      rw [he]
      exact Nat.mul_le_mul_right _ (by omega)
    exact le_trans h2 h1

/-- A numeral of three or more digits has value at least 100. -/
theorem charsVal_big (c1 c2 c3 : Char) (t : List Char)
    (h : NumeralChars (c1 :: c2 :: c3 :: t)) :
    100 ≤ charsVal (c1 :: c2 :: c3 :: t) := by
  rw [numeralChars_cons] at h
  obtain ⟨h49, _, _⟩ := h
  have hacc : 10 * 0 + (c1.toNat - 48) = c1.toNat - 48 := by omega
  have hge := charsVal_foldl_ge (c2 :: c3 :: t) (c1.toNat - 48)
  have hpow : 100 ≤ (c1.toNat - 48) * 10 ^ (c2 :: c3 :: t).length := by
    have hlen : (c2 :: c3 :: t).length = t.length + 2 := by simp
    rw [hlen]
    calc (100 : Nat) = 1 * 10 ^ 2 := by norm_num
    _ ≤ (c1.toNat - 48) * 10 ^ (t.length + 2) :=
      Nat.mul_le_mul (by omega) (Nat.pow_le_pow_right (by norm_num) (by omega))
  calc (100 : Nat) ≤ (c1.toNat - 48) * 10 ^ (c2 :: c3 :: t).length := hpow
  _ ≤ _ := by
    simp only [charsVal, List.foldl_cons, hacc] at hge ⊢
    exact hge

/-- The specification of the date pattern: a word-boundary-delimited
occurrence of four digits, a dot (code point 46), a month numeral with
value 1 to 12, a dot, and a day numeral with value 1 to 31. -/
def SpecContainsDate (l : List Char) : Prop :=
  ∃ pre y1 y2 y3 y4 d1 mc d2 dc post,
    l = pre ++ y1 :: y2 :: y3 :: y4 :: d1 :: (mc ++ d2 :: (dc ++ post)) ∧
    (48 ≤ y1.toNat ∧ y1.toNat ≤ 57) ∧ (48 ≤ y2.toNat ∧ y2.toNat ≤ 57) ∧
    (48 ≤ y3.toNat ∧ y3.toNat ≤ 57) ∧ (48 ≤ y4.toNat ∧ y4.toNat ≤ 57) ∧
    d1.toNat = 46 ∧ d2.toNat = 46 ∧
    NumeralChars mc ∧ 1 ≤ charsVal mc ∧ charsVal mc ≤ 12 ∧
    NumeralChars dc ∧ 1 ≤ charsVal dc ∧ charsVal dc ≤ 31 ∧
    (pre = [] ∨ ∃ q c, pre = q ++ [c] ∧ isWordChar c = false) ∧
    (post = [] ∨ ∃ c q, post = c :: q ∧ isWordChar c = false)

theorem noWordNext_iff (l : List Char) :
    noWordNext l = true ↔
      (l = [] ∨ ∃ c q, l = c :: q ∧ isWordChar c = false) := by
  cases l with
  | nil => simp [noWordNext]
  | cons c q =>
    simp only [noWordNext, Bool.not_eq_true']
    constructor
    · intro h; exact Or.inr ⟨c, q, rfl, h⟩
    · rintro (h | ⟨c', q', heq, hw⟩)
      · exact absurd h (by simp)
      · injection heq with e1 e2
        subst e1
        exact hw

/-- Bool-level constructors for the day alternation. -/
theorem matchDayB_of_one {c : Char} {post : List Char}
    (h1 : 49 ≤ c.toNat) (h2 : c.toNat ≤ 57) (hnw : noWordNext post = true) :
    matchDayB (c :: post) = true := by
  simp only [matchDayB, Bool.or_eq_true, Bool.and_eq_true, decide_eq_true_eq]
  exact Or.inl (Or.inl ⟨⟨h1, h2⟩, hnw⟩)

theorem matchDayB_of_teens {c d : Char} {post : List Char}
    (h1 : c.toNat = 49 ∨ c.toNat = 50) (h2 : 48 ≤ d.toNat) (h3 : d.toNat ≤ 57)
    (hnw : noWordNext post = true) :
    matchDayB (c :: d :: post) = true := by
  simp only [matchDayB, isDigitCh, Bool.or_eq_true, Bool.and_eq_true,
    decide_eq_true_eq]
  exact Or.inl (Or.inr ⟨h1, ⟨h2, h3⟩, hnw⟩)

theorem matchDayB_of_thirty {c d : Char} {post : List Char}
    (h1 : c.toNat = 51) (h2 : d.toNat = 48 ∨ d.toNat = 49)
    (hnw : noWordNext post = true) :
    matchDayB (c :: d :: post) = true := by
  simp only [matchDayB, Bool.or_eq_true, Bool.and_eq_true, decide_eq_true_eq]
  exact Or.inr ⟨h1, h2, hnw⟩

/-- Bool-level constructors for the month alternation. -/
theorem matchMonthDot_of_one {c d2 : Char} {rest2 : List Char}
    (h1 : 49 ≤ c.toNat) (h2 : c.toNat ≤ 57) (hd : d2.toNat = 46)
    (hday : matchDayB rest2 = true) :
    matchMonthDot (c :: d2 :: rest2) = true := by
  simp only [matchMonthDot, Bool.or_eq_true, Bool.and_eq_true, decide_eq_true_eq]
  exact Or.inl ⟨⟨h1, h2⟩, hd, hday⟩

theorem matchMonthDot_of_two {c m2 d : Char} {rest2 : List Char}
    (h1 : c.toNat = 49) (h2 : 48 ≤ m2.toNat) (h3 : m2.toNat ≤ 50)
    (hd : d.toNat = 46) (hday : matchDayB rest2 = true) :
    matchMonthDot (c :: m2 :: d :: rest2) = true := by
  simp only [matchMonthDot, Bool.or_eq_true, Bool.and_eq_true, decide_eq_true_eq]
  exact Or.inr ⟨h1, ⟨⟨h2, h3⟩, hd⟩, hday⟩

/-- The day alternation accepts exactly the no-leading-zero numerals
of value 1 to 31, followed by a word boundary. -/
theorem matchDayB_iff (r : List Char) :
    matchDayB r = true ↔
      ∃ dc post, r = dc ++ post ∧ NumeralChars dc ∧ 1 ≤ charsVal dc ∧
        charsVal dc ≤ 31 ∧ noWordNext post = true := by
  constructor
  · intro h
    cases r with
    | nil => simp [matchDayB] at h
    | cons c rest =>
      cases rest with
      | nil =>
        simp [matchDayB, noWordNext, isDigitCh] at h
        refine ⟨[c], [], rfl, (numeralChars_cons c []).mpr ⟨h.1, h.2, by simp⟩,
          ?_, ?_, rfl⟩
        · rw [charsVal_one]; omega
        · rw [charsVal_one]; omega
      | cons d rest2 =>
        simp [matchDayB, noWordNext, isDigitCh] at h
        rcases h with (⟨⟨h1, h2⟩, h3⟩ | ⟨h1, ⟨h2a, h2b⟩, h3⟩) | ⟨h1, h2, h3⟩
        · refine ⟨[c], d :: rest2, rfl,
            (numeralChars_cons c []).mpr ⟨h1, h2, by simp⟩, ?_, ?_,
            by simp [noWordNext, h3]⟩
          · rw [charsVal_one]; omega
          · rw [charsVal_one]; omega
        · refine ⟨[c, d], rest2, rfl,
            (numeralChars_cons c [d]).mpr ⟨by omega, by omega, ?_⟩, ?_, ?_, h3⟩
          · intro e he; simp at he; subst he; omega
          · rw [charsVal_two]; omega
          · rw [charsVal_two]; omega
        · refine ⟨[c, d], rest2, rfl,
            (numeralChars_cons c [d]).mpr ⟨by omega, by omega, ?_⟩, ?_, ?_, h3⟩
          · intro e he; simp at he; subst he; omega
          · rw [charsVal_two]; omega
          · rw [charsVal_two]; omega
  · rintro ⟨dc, post, rfl, hnum, hge, hle, hnw⟩
    cases dc with
    | nil => exact absurd hnum numeralChars_nil
    | cons c1 dt =>
      rw [numeralChars_cons] at hnum
      obtain ⟨hc1a, hc1b, hall⟩ := hnum
      cases dt with
      | nil =>
        exact matchDayB_of_one hc1a hc1b hnw
      | cons c2 dt2 =>
        cases dt2 with
        | nil =>
          rw [charsVal_two] at hge hle
          have hc2 := hall c2 (by simp)
          by_cases h50 : c1.toNat ≤ 50
          · exact matchDayB_of_teens (by omega) (by omega) (by omega) hnw
          · exact matchDayB_of_thirty (by omega) (by omega) hnw
        | cons c3 dt3 =>
          exfalso
          have := charsVal_big c1 c2 c3 dt3
            ((numeralChars_cons c1 (c2 :: c3 :: dt3)).mpr ⟨hc1a, hc1b, hall⟩)
          omega

/-- The month alternation followed by a dot accepts exactly the
no-leading-zero numerals of value 1 to 12, a dot, and a day match. -/
theorem matchMonthDot_iff (r : List Char) :
    matchMonthDot r = true ↔
      ∃ mc d2 rest2, r = mc ++ d2 :: rest2 ∧ NumeralChars mc ∧
        1 ≤ charsVal mc ∧ charsVal mc ≤ 12 ∧ d2.toNat = 46 ∧
        matchDayB rest2 = true := by
  constructor
  · intro h
    cases r with
    | nil => simp [matchMonthDot] at h
    | cons c rest =>
      cases rest with
      | nil => simp [matchMonthDot] at h
      | cons a rest' =>
        cases rest' with
        | nil =>
          simp [matchMonthDot, matchDayB, noWordNext, isDigitCh] at h
        | cons b rest'' =>
          simp [matchMonthDot, isDigitCh] at h
          rcases h with ⟨⟨h1, h2⟩, h3, h4⟩ | ⟨h1, ⟨⟨h2a, h2b⟩, h3⟩, h4⟩
          · refine ⟨[c], a, b :: rest'', rfl,
              (numeralChars_cons c []).mpr ⟨h1, h2, by simp⟩, ?_, ?_, h3, h4⟩
            · rw [charsVal_one]; omega
            · rw [charsVal_one]; omega
          · refine ⟨[c, a], b, rest'', rfl,
              (numeralChars_cons c [a]).mpr ⟨by omega, by omega, ?_⟩, ?_, ?_,
              h3, h4⟩
            · intro e he; simp at he; subst he; omega
            · rw [charsVal_two]; omega
            · rw [charsVal_two]; omega
  · rintro ⟨mc, d2, rest2, rfl, hnum, hge, hle, hd2, hday⟩
    cases mc with
    | nil => exact absurd hnum numeralChars_nil
    | cons c1 mt =>
      rw [numeralChars_cons] at hnum
      obtain ⟨hc1a, hc1b, hall⟩ := hnum
      cases mt with
      | nil =>
        exact matchMonthDot_of_one hc1a hc1b hd2 hday
      | cons c2 mt2 =>
        cases mt2 with
        | nil =>
          rw [charsVal_two] at hge hle
          have hc2 := hall c2 (by simp)
          exact matchMonthDot_of_two (by omega) (by omega) (by omega) hd2 hday
        | cons c3 mt3 =>
          exfalso
          have := charsVal_big c1 c2 c3 mt3
            ((numeralChars_cons c1 (c2 :: c3 :: mt3)).mpr ⟨hc1a, hc1b, hall⟩)
          omega

/-- The pattern head accepts exactly four digits, a dot, and a month
match. -/
theorem matchDateAt_iff (post : List Char) :
    matchDateAt post = true ↔
      ∃ y1 y2 y3 y4 d1 rest, post = y1 :: y2 :: y3 :: y4 :: d1 :: rest ∧
        (48 ≤ y1.toNat ∧ y1.toNat ≤ 57) ∧ (48 ≤ y2.toNat ∧ y2.toNat ≤ 57) ∧
        (48 ≤ y3.toNat ∧ y3.toNat ≤ 57) ∧ (48 ≤ y4.toNat ∧ y4.toNat ≤ 57) ∧
        d1.toNat = 46 ∧ matchMonthDot rest = true := by
  constructor
  · intro h
    cases post with
    | nil => simp [matchDateAt] at h
    | cons y1 t1 =>
      cases t1 with
      | nil => simp [matchDateAt] at h
      | cons y2 t2 =>
        cases t2 with
        | nil => simp [matchDateAt] at h
        | cons y3 t3 =>
          cases t3 with
          | nil => simp [matchDateAt] at h
          | cons y4 t4 =>
            cases t4 with
            | nil => simp [matchDateAt] at h
            | cons d1 rest =>
              simp only [matchDateAt, isDigitCh, Bool.and_eq_true,
                decide_eq_true_eq] at h
              obtain ⟨⟨⟨⟨⟨h1, h2⟩, h3⟩, h4⟩, h5⟩, h6⟩ := h
              exact ⟨y1, y2, y3, y4, d1, rest, rfl, h1, h2, h3, h4, h5, h6⟩
  · rintro ⟨y1, y2, y3, y4, d1, rest, rfl, h1, h2, h3, h4, h5, h6⟩
    simp only [matchDateAt, isDigitCh, Bool.and_eq_true, decide_eq_true_eq]
    exact ⟨⟨⟨⟨⟨h1, h2⟩, h3⟩, h4⟩, h5⟩, h6⟩

/-- Word-boundary state after consuming a prefix, starting from the
given state at its left end. -/
def bndAfter : Bool → List Char → Bool
  | b, [] => b
  | _, c :: rest => bndAfter (!(isWordChar c)) rest

theorem bndAfter_concat : ∀ (p : List Char) (c : Char) (b : Bool),
    bndAfter b (p ++ [c]) = !(isWordChar c) := by
  intro p
  induction p with
  | nil => intro c b; rfl
  | cons x p ih =>
    intro c b
    simp only [List.cons_append, bndAfter]
    exact ih c _

theorem bndAfter_true_iff (pre : List Char) :
    bndAfter true pre = true ↔
      (pre = [] ∨ ∃ q c, pre = q ++ [c] ∧ isWordChar c = false) := by
  rcases List.eq_nil_or_concat pre with rfl | ⟨q, c, rfl⟩
  · simp [bndAfter]
  · rw [List.concat_eq_append, bndAfter_concat]
    constructor
    · intro h
      exact Or.inr ⟨q, c, rfl, by simpa using h⟩
    · rintro (h | ⟨q', c', heq, hw⟩)
      · exact absurd h (by simp)
      · obtain ⟨rfl, h2⟩ := List.append_inj' heq rfl
        injection h2 with e1 _
        subst e1
        simp [hw]

/-- The search succeeds exactly on a split into a prefix whose end
state is a boundary and a remainder matched by the pattern head. -/
theorem dateSearch_iff_split : ∀ (l : List Char) (b : Bool),
    dateSearch b l = true ↔
      ∃ pre post, l = pre ++ post ∧ bndAfter b pre = true ∧
        matchDateAt post = true := by
  intro l
  induction l with
  | nil =>
    intro b
    constructor
    · intro h
      exact absurd h (by simp [dateSearch])
    · rintro ⟨pre, post, hsplit, hbnd, hmatch⟩
      rcases List.append_eq_nil.mp hsplit.symm with ⟨rfl, rfl⟩
      simp [matchDateAt] at hmatch
  | cons c rest ih =>
    intro b
    simp only [dateSearch, Bool.or_eq_true, Bool.and_eq_true]
    constructor
    · rintro (⟨hb, hm⟩ | h)
      · exact ⟨[], c :: rest, rfl, hb, hm⟩
      · obtain ⟨pre, post, hsplit, hbnd, hm⟩ := (ih _).mp h
        exact ⟨c :: pre, post, by rw [hsplit]; rfl, hbnd, hm⟩
    · rintro ⟨pre, post, hsplit, hbnd, hm⟩
      cases pre with
      | nil =>
        simp only [List.nil_append] at hsplit
        exact Or.inl ⟨hbnd, hsplit ▸ hm⟩
      | cons c' pre' =>
        rw [List.cons_append] at hsplit
        injection hsplit with e1 e2
        subst e1
        exact Or.inr ((ih _).mpr ⟨pre', post, e2, hbnd, hm⟩)

/-- The executable regex search is equivalent to the specification of
the date pattern. -/
theorem dateSearch_spec (l : List Char) :
    dateSearch true l = true ↔ SpecContainsDate l := by
  rw [dateSearch_iff_split]
  constructor
  · rintro ⟨pre, post, rfl, hbnd, hm⟩
    obtain ⟨y1, y2, y3, y4, d1, rest, rfl, hy1, hy2, hy3, hy4, hd1, hmm⟩ :=
      (matchDateAt_iff post).mp hm
    obtain ⟨mc, d2, rest2, rfl, hnum, hv1, hv12, hd2, hday⟩ :=
      (matchMonthDot_iff rest).mp hmm
    obtain ⟨dc, post', rfl, hnumd, hdv1, hdv31, hnw⟩ :=
      (matchDayB_iff rest2).mp hday
    exact ⟨pre, y1, y2, y3, y4, d1, mc, d2, dc, post', rfl, hy1, hy2, hy3, hy4,
      hd1, hd2, hnum, hv1, hv12, hnumd, hdv1, hdv31,
      (bndAfter_true_iff pre).mp hbnd, (noWordNext_iff post').mp hnw⟩
  · rintro ⟨pre, y1, y2, y3, y4, d1, mc, d2, dc, post', rfl, hy1, hy2, hy3, hy4,
      hd1, hd2, hnum, hv1, hv12, hnumd, hdv1, hdv31, hpre, hpost⟩
    refine ⟨pre, y1 :: y2 :: y3 :: y4 :: d1 :: (mc ++ d2 :: (dc ++ post')), rfl,
      (bndAfter_true_iff pre).mpr hpre, ?_⟩
    rw [matchDateAt_iff]
    refine ⟨y1, y2, y3, y4, d1, mc ++ d2 :: (dc ++ post'), rfl, hy1, hy2, hy3,
      hy4, hd1, ?_⟩
    rw [matchMonthDot_iff]
    refine ⟨mc, d2, dc ++ post', rfl, hnum, hv1, hv12, hd2, ?_⟩
    rw [matchDayB_iff]
    exact ⟨dc, post', rfl, hnumd, hdv1, hdv31, (noWordNext_iff post').mpr hpost⟩

/-- C3 (counterexample): the marker with day 30 in February is
accepted by the code, not turned into the needs-review sentinel as the
claim states, because the pattern only checks the day range 1 to 31
and never calendar validity. -/
theorem c3_counterexample :
    extractSearchDate "검색일: 2023.2.30".data = "2023.2.30".data ∧
    "2023.2.30".data ≠ "확인필요".data := by
  decide

/-- C3 (amended): after stripping the label, the extracted date is
kept exactly when the stripped text contains a word-boundary-delimited
date of the pattern (month value 1 to 12, day value 1 to 31, calendar
validity not checked) and becomes the needs-review sentinel otherwise;
in particular day 30 of February is accepted, and the November example
of the claim is accepted. -/
theorem c3_date_validation :
    (∀ s3, (SpecContainsDate (pyStrip (stripLabel s3)) →
              extractSearchDate s3 = pyStrip (stripLabel s3)) ∧
           (¬ SpecContainsDate (pyStrip (stripLabel s3)) →
              extractSearchDate s3 = "확인필요".data)) ∧
    extractSearchDate "검색일: 2023.2.30".data = "2023.2.30".data ∧
    extractSearchDate "검색일: 2023.11.5".data = "2023.11.5".data ∧
    extractSearchDate "검색일: 2023.13.5".data = "확인필요".data := by
  refine ⟨fun s3 => ⟨?_, ?_⟩, by decide, by decide, by decide⟩
  · intro h
    unfold extractSearchDate
    dsimp only
    rw [if_pos ((dateSearch_spec _).mpr h)]
  · intro h
    unfold extractSearchDate
    dsimp only
    rw [if_neg (fun hc => h ((dateSearch_spec _).mp hc))]

/-- C3 (witness): the November marker satisfies the date
specification, so the amended theorem keeps its stripped text. -/
theorem c3_witness :
    extractSearchDate "검색일: 2023.11.5".data =
      pyStrip (stripLabel "검색일: 2023.11.5".data) := by
  apply (c3_date_validation.1 "검색일: 2023.11.5".data).1
  have he : pyStrip (stripLabel "검색일: 2023.11.5".data) = "2023.11.5".data := by
    decide
  rw [he]
  exact ⟨[], '2', '0', '2', '3', '.', ['1', '1'], '.', ['5'], [], by decide,
    by decide, by decide, by decide, by decide, by decide, by decide,
    (numeralChars_cons '1' ['1']).mpr (by decide), by decide, by decide,
    (numeralChars_cons '5' []).mpr (by decide), by decide, by decide,
    Or.inl rfl, Or.inl rfl⟩

end RefCheck
